import Mathlib

/-
Verification of the topographic-variable extraction pipeline
(GEE_TopographicVariableExtractionScript.js).

The script is a batch transform over a feature collection: it samples an
elevation raster (and its derived slope/aspect layers) at each point,
computes the mean elevation in a 100-unit-radius disk around each point,
sets relative elevation (elevation minus that mean), and sets a solar
radiation index from slope, aspect, and latitude with fixed solar
constants.  Machine floats are modelled as real numbers; a missing raster
cell or property is an `Option` `none`; a platform evaluation error in a
mapped stage (arithmetic on a null, sampling a feature without a
geometry, a reduce call over more pixels than `maxPixels`) makes the
stage's result `none` for the whole collection, because one failing
feature aborts the evaluated computation.
-/

namespace TopoExtract

/-- Constant from the script: solar declination 23.44 degrees in radians. -/
noncomputable def solarDeclination : ℝ := 23.44 * Real.pi / 180

/-- Constant from the script: solar azimuth 136.52 degrees in radians. -/
noncomputable def solarAzimuth : ℝ := 136.52 * Real.pi / 180

/-- Degrees-to-radians conversion used throughout the script
(`.multiply(Math.PI).divide(180)`). -/
noncomputable def degToRad (d : ℝ) : ℝ := d * Real.pi / 180

/-- Solar zenith at solstice noon, from the script:
`latRad.subtract(solarDeclination).abs()`. -/
noncomputable def solarZenith (latRad : ℝ) : ℝ := |latRad - solarDeclination|

/-- The solar radiation index formula from the `withSRI` map function:
`cos(zenith)*cos(slopeRad) + sin(zenith)*sin(slopeRad)*cos(aspectRad - azimuth)`
with all three inputs given in degrees. -/
noncomputable def sri (slopeDeg aspectDeg latDeg : ℝ) : ℝ :=
  Real.cos (solarZenith (degToRad latDeg)) * Real.cos (degToRad slopeDeg) +
    Real.sin (solarZenith (degToRad latDeg)) * Real.sin (degToRad slopeDeg) *
      Real.cos (degToRad aspectDeg - solarAzimuth)

/-- Bound used for the SRI range: the square of
`cos u * cos v + sin u * sin v * cos w` is at most `1`. -/
lemma sri_shape_sq_le_one (u v w : ℝ) :
    (Real.cos u * Real.cos v + Real.sin u * Real.sin v * Real.cos w) ^ 2 ≤ 1 := by
  have hu := Real.sin_sq_add_cos_sq u
  have hv := Real.sin_sq_add_cos_sq v
  have hw : Real.cos w ^ 2 ≤ 1 := Real.cos_sq_le_one w
  nlinarith [sq_nonneg (Real.cos u * Real.sin v - Real.sin u * Real.cos v * Real.cos w),
    sq_nonneg (Real.sin u), sq_nonneg (Real.sin v), sq_nonneg (Real.cos w),
    sq_nonneg (Real.sin u * Real.sin v), sq_nonneg (Real.sin u * Real.cos w)]

/-- C4: for every slope, aspect and latitude (degrees), the computed solar
radiation index lies in the closed interval [-1, 1]. -/
theorem sri_mem_Icc (slopeDeg aspectDeg latDeg : ℝ) :
    -1 ≤ sri slopeDeg aspectDeg latDeg ∧ sri slopeDeg aspectDeg latDeg ≤ 1 := by
  have h := sri_shape_sq_le_one (solarZenith (degToRad latDeg)) (degToRad slopeDeg)
    (degToRad aspectDeg - solarAzimuth)
  have habs : |sri slopeDeg aspectDeg latDeg| ≤ 1 := by
    have := (sq_le_one_iff_abs_le_one (a := sri slopeDeg aspectDeg latDeg)).mp
      (by simpa [sri] using h)
    simpa using this
  exact abs_le.mp habs

/-- C5: on flat terrain (slope = 0) the solar radiation index equals
`cos(solarZenith)` and does not depend on the aspect value, so an
arbitrary aspect on flat terrain never changes the result. -/
theorem sri_flat_aspect_independent (a1 a2 latDeg : ℝ) :
    sri 0 a1 latDeg = Real.cos (solarZenith (degToRad latDeg)) ∧
      sri 0 a1 latDeg = sri 0 a2 latDeg := by
  have hz : degToRad 0 = 0 := by simp [degToRad]
  constructor
  · simp [sri, hz]
  · simp [sri, hz]

/-- C10: the solar radiation index is symmetric in latitude about the
declination 23.44 degrees: latitudes 23.44 + x and 23.44 - x give the
same index for equal slope and aspect, because the zenith is the absolute
difference of latitude and declination. -/
theorem sri_lat_symmetric (slopeDeg aspectDeg x : ℝ) :
    sri slopeDeg aspectDeg (23.44 + x) = sri slopeDeg aspectDeg (23.44 - x) := by
  have hz : solarZenith (degToRad (23.44 + x)) = solarZenith (degToRad (23.44 - x)) := by
    have e1 : degToRad (23.44 + x) - solarDeclination = x * (Real.pi / 180) := by
      simp only [degToRad, solarDeclination]; ring
    have e2 : degToRad (23.44 - x) - solarDeclination = -(x * (Real.pi / 180)) := by
      simp only [degToRad, solarDeclination]; ring
    simp only [solarZenith, e1, e2, abs_neg]
  simp only [sri, hz]

/-- A feature of the collection: an optional point geometry
(longitude, latitude) and a property map from names to optional numeric
values (`none` models a null property). -/
structure Feature where
  geometry : Option (ℝ × ℝ)
  props : String → Option ℝ

/-- Property lookup, as `feature.get(name)` in the script. -/
def Feature.get (f : Feature) (k : String) : Option ℝ := f.props k

/-- Property update, as `feature.set(name, value)` in the script: the
named property is replaced, every other property and the geometry are
untouched. -/
def Feature.set (f : Feature) (k : String) (v : Option ℝ) : Feature :=
  { f with props := fun k2 => if k2 = k then v else f.props k2 }

lemma Feature.set_geometry (f : Feature) (k : String) (v : Option ℝ) :
    (f.set k v).geometry = f.geometry := rfl

lemma Feature.get_set_self (f : Feature) (k : String) (v : Option ℝ) :
    (f.set k v).get k = v := by
  simp [Feature.set, Feature.get]

lemma Feature.get_set_ne (f : Feature) (k key : String) (v : Option ℝ)
    (h : k ≠ key) : (f.set key v).get k = f.get k := by
  simp [Feature.set, Feature.get, h]

/-- Modelled from the spec (4.1 Raster Accessor) and the platform raster
primitives the script calls: a raster is a grid of elevation cells of
size 2 distance units (the script samples and reduces at `scale: 2`);
the cell with index `(i, j)` has its center at coordinate `(2i, 2j)`,
and `data (i, j) = none` models a masked cell / a cell outside the
raster extent. -/
structure Raster where
  data : ℤ × ℤ → Option ℝ

/-- The grid cell whose center is nearest to the coordinate. -/
noncomputable def nearestCell (x y : ℝ) : ℤ × ℤ := (round (x / 2), round (y / 2))

/-- Modelled from the spec (4.1 `valueAt`): resolution-matched lookup of
the raster at a coordinate; `none` when the coordinate falls on a masked
cell or outside the raster extent. -/
noncomputable def valueAt (r : Raster) (x y : ℝ) : Option ℝ := r.data (nearestCell x y)

/-- Lower cell index bound of the disk of radius `rad` around coordinate `c`. -/
noncomputable def cellLo (c rad : ℝ) : ℤ := ⌈(c - rad) / 2⌉

/-- Upper cell index bound of the disk of radius `rad` around coordinate `c`. -/
noncomputable def cellHi (c rad : ℝ) : ℤ := ⌊(c + rad) / 2⌋

/-- The grid cells whose centers fall within distance `rad` of `(x, y)`
(the pixels the platform's reduce call visits for the buffer geometry). -/
noncomputable def diskCells (x y rad : ℝ) : Finset (ℤ × ℤ) :=
  (Finset.Icc (cellLo x rad) (cellHi x rad) ×ˢ Finset.Icc (cellLo y rad) (cellHi y rad)).filter
    (fun p => (2 * (p.1 : ℝ) - x) ^ 2 + (2 * (p.2 : ℝ) - y) ^ 2 ≤ rad ^ 2)

/-- Membership in `diskCells` is exactly the center-in-disk condition:
for a nonnegative radius the index box never cuts off a cell whose
center is inside the disk. -/
lemma mem_diskCells (x y rad : ℝ) (hrad : 0 ≤ rad) (p : ℤ × ℤ) :
    p ∈ diskCells x y rad ↔
      (2 * (p.1 : ℝ) - x) ^ 2 + (2 * (p.2 : ℝ) - y) ^ 2 ≤ rad ^ 2 := by
  constructor
  · intro hp
    exact (Finset.mem_filter.mp hp).2
  · intro hp
    refine Finset.mem_filter.mpr ⟨Finset.mem_product.mpr ⟨?_, ?_⟩, hp⟩
    · have hx2 : (2 * (p.1 : ℝ) - x) ^ 2 ≤ rad ^ 2 := by
        nlinarith [sq_nonneg (2 * (p.2 : ℝ) - y)]
      have h1 : 2 * (p.1 : ℝ) - x ≤ rad := by nlinarith
      have h2 : -rad ≤ 2 * (p.1 : ℝ) - x := by nlinarith
      refine Finset.mem_Icc.mpr ⟨Int.ceil_le.mpr ?_, Int.le_floor.mpr ?_⟩
      · linarith
      · linarith
    · have hy2 : (2 * (p.2 : ℝ) - y) ^ 2 ≤ rad ^ 2 := by
        nlinarith [sq_nonneg (2 * (p.1 : ℝ) - x)]
      have h1 : 2 * (p.2 : ℝ) - y ≤ rad := by nlinarith
      have h2 : -rad ≤ 2 * (p.2 : ℝ) - y := by nlinarith
      refine Finset.mem_Icc.mpr ⟨Int.ceil_le.mpr ?_, Int.le_floor.mpr ?_⟩
      · linarith
      · linarith

/-- The unmasked (valid) cells of the disk: the cells the mean reducer
actually aggregates. -/
noncomputable def coveredCells (dem : Raster) (x y rad : ℝ) : Finset (ℤ × ℤ) :=
  (diskCells x y rad).filter (fun p => (dem.data p).isSome)

/-- Modelled from the spec (4.1 `meanInDisk`) and the platform mean
reducer: the arithmetic mean of the valid cells of the disk, `none`
(null) when the disk covers no valid cell. -/
noncomputable def meanCovered (dem : Raster) (x y rad : ℝ) : Option ℝ :=
  if (coveredCells dem x y rad).card = 0 then none
  else
    some ((∑ p in coveredCells dem x y rad, (dem.data p).getD 0) /
      (coveredCells dem x y rad).card)

/-- The script's `reduceRegion` call with a mean reducer and a `maxPixels`
bound: the platform raises an error (outer `none`) when the region holds
more pixels than `maxPixels`; otherwise it yields the mean, which is
itself null (inner `none`) when no valid cell is covered. -/
noncomputable def reduceRegionMean (dem : Raster) (x y rad : ℝ) (maxPix : ℕ) :
    Option (Option ℝ) :=
  if maxPix < (diskCells x y rad).card then none
  else some (meanCovered dem x y rad)

/-- The per-feature body of `sampledWithMean100m`: buffer the point by
100, reduce the DEM over the buffer at scale 2 with `maxPixels: 1e6`,
and set the result (possibly null) as `mean_elev_100m`.  A feature
without a geometry cannot be buffered, and a failed reduce call is a
platform error: both abort the evaluation (`none`). -/
noncomputable def meanElevStep (dem : Raster) (f : Feature) : Option Feature :=
  match f.geometry with
  | none => none
  | some c =>
    match reduceRegionMean dem c.1 c.2 100 1000000 with
    | none => none
    | some v => some (f.set "mean_elev_100m" v)

/-- The per-feature body of `withRelativeElev`: read `elevation` and
`mean_elev_100m` as numbers and set their difference as
`relative_elev`.  Arithmetic on a null property is a platform error
(`none`). -/
noncomputable def relativeElevStep (f : Feature) : Option Feature :=
  match f.get "elevation", f.get "mean_elev_100m" with
  | some e, some m => some (f.set "relative_elev" (some (e - m)))
  | _, _ => none

/-- The per-feature body of `withSRI`: read `slope` and `aspect` as
numbers, take the latitude from the geometry's second coordinate, and
set the solar radiation index.  A null slope or aspect or a missing
geometry is a platform error (`none`). -/
noncomputable def sriStep (f : Feature) : Option Feature :=
  match f.get "slope", f.get "aspect", f.geometry with
  | some s, some a, some c => some (f.set "solar_radiation_index" (some (sri s a c.2)))
  | _, _, _ => none

/-- A mapped stage over the whole collection: one failing feature makes
the evaluated collection fail. -/
noncomputable def mapStage (g : Feature → Option Feature) : List Feature → Option (List Feature)
  | [] => some []
  | f :: rest =>
    match g f, mapStage g rest with
    | some f2, some rest2 => some (f2 :: rest2)
    | _, _ => none

/-- The `sampleRegions` call building `sampledPoints`: each feature is
sampled at its own coordinate from the elevation, slope and aspect
layers at scale 2, keeping geometries.  A feature whose pixel in the
primary layer is masked (outside raster coverage) is dropped from the
output without any record; a feature without a geometry cannot be
sampled and is a platform error aborting the evaluation (`none`). -/
noncomputable def sampledPointsOf (elev slope aspect : Raster) :
    List Feature → Option (List Feature)
  | [] => some []
  | f :: rest =>
    match f.geometry with
    | none => none
    | some c =>
      match valueAt elev c.1 c.2, sampledPointsOf elev slope aspect rest with
      | none, rest2 => rest2
      | some e, some rest2 =>
        some ((((f.set "elevation" (some e)).set "slope"
          (valueAt slope c.1 c.2)).set "aspect" (valueAt aspect c.1 c.2)) :: rest2)
      | some _, none => none

/-- Stage `sampledWithMean100m` of the script. -/
noncomputable def withMean100m (dem : Raster) (fs : List Feature) : Option (List Feature) :=
  mapStage (meanElevStep dem) fs

/-- Stage `withRelativeElev` of the script. -/
noncomputable def withRelativeElev (fs : List Feature) : Option (List Feature) :=
  mapStage relativeElevStep fs

/-- Stage `withSRI` of the script. -/
noncomputable def withSRI (fs : List Feature) : Option (List Feature) :=
  mapStage sriStep fs

/-- The whole pipeline on a point collection: sample the terrain layers,
add the 100-unit neighborhood mean, add relative elevation, add the
solar radiation index; the result is the exported table. -/
noncomputable def pipeline (elev slope aspect : Raster) (pts : List Feature) :
    Option (List Feature) :=
  match sampledPointsOf elev slope aspect pts with
  | none => none
  | some s =>
    match withMean100m elev s with
    | none => none
    | some m =>
      match withRelativeElev m with
      | none => none
      | some r => withSRI r

/-- The index range of the disk of radius 100 spans at most 101 cells. -/
lemma card_Icc_cell_le (c : ℝ) :
    (Finset.Icc (cellLo c 100) (cellHi c 100)).card ≤ 101 := by
  have hfl : (cellHi c 100 : ℝ) ≤ (c + 100) / 2 := Int.floor_le _
  have hce : (c - 100) / 2 ≤ (cellLo c 100 : ℝ) := Int.le_ceil _
  have hdiff : (cellHi c 100 : ℝ) - (cellLo c 100 : ℝ) ≤ 100 := by linarith
  have hdiffz : cellHi c 100 - cellLo c 100 ≤ 100 := by exact_mod_cast hdiff
  calc (Finset.Icc (cellLo c 100) (cellHi c 100)).card
      = (cellHi c 100 + 1 - cellLo c 100).toNat := Int.card_Icc _ _
    _ ≤ 101 := by omega

/-- The disk of radius 100 holds at most 101 * 101 = 10201 cells. -/
lemma card_diskCells_le (x y : ℝ) : (diskCells x y 100).card ≤ 10201 := by
  calc (diskCells x y 100).card
      ≤ ((Finset.Icc (cellLo x 100) (cellHi x 100) ×ˢ
          Finset.Icc (cellLo y 100) (cellHi y 100))).card := Finset.card_filter_le _ _
    _ = (Finset.Icc (cellLo x 100) (cellHi x 100)).card *
          (Finset.Icc (cellLo y 100) (cellHi y 100)).card := Finset.card_product _ _
    _ ≤ 101 * 101 := Nat.mul_le_mul (card_Icc_cell_le x) (card_Icc_cell_le y)
    _ = 10201 := by norm_num

/-- C9: for the configuration in the script (disk radius 100 over
2-unit cells), the number of pixels the mean reducer visits is at most
10201 (on the order of ten thousand), so the `maxPixels: 1e6` cap is
never reached and the capped reduce call returns exactly the uncapped
disk mean for every raster and every center. -/
theorem maxPixels_guard (dem : Raster) (x y : ℝ) :
    (diskCells x y 100).card ≤ 10201 ∧
      reduceRegionMean dem x y 100 1000000 = some (meanCovered dem x y 100) := by
  refine ⟨card_diskCells_le x y, ?_⟩
  have hlt : ¬ (1000000 < (diskCells x y 100).card) := by
    have := card_diskCells_le x y
    omega
  simp [reduceRegionMean, hlt]

/-- Helper: the reduce call of the mean-elevation stage never trips the
pixel cap at radius 100, so it returns the plain disk mean. -/
lemma reduceRegionMean_eq (dem : Raster) (x y : ℝ) :
    reduceRegionMean dem x y 100 1000000 = some (meanCovered dem x y 100) := by
  have hlt : ¬ (1000000 < (diskCells x y 100).card) := by
    have := card_diskCells_le x y
    omega
  simp [reduceRegionMean, hlt]

/-- C1: for every feature with slope, aspect and geometry (hence
latitude), the SRI stage sets `solar_radiation_index` to
`cos(zenith)*cos(slopeRad) + sin(zenith)*sin(slopeRad)*cos(aspectRad - azimuth)`
where the zenith is `|latRad - 23.44 deg|` and the azimuth is 136.52
degrees in radians, both the same fixed constants for every feature. -/
theorem sriStep_formula (f : Feature) (s a x y : ℝ)
    (hs : f.get "slope" = some s) (ha : f.get "aspect" = some a)
    (hg : f.geometry = some (x, y)) :
    ∃ f2, sriStep f = some f2 ∧
      f2.get "solar_radiation_index" =
        some (Real.cos |y * Real.pi / 180 - 23.44 * Real.pi / 180| *
            Real.cos (s * Real.pi / 180) +
          Real.sin |y * Real.pi / 180 - 23.44 * Real.pi / 180| *
            Real.sin (s * Real.pi / 180) *
            Real.cos (a * Real.pi / 180 - 136.52 * Real.pi / 180)) := by
  refine ⟨f.set "solar_radiation_index" (some (sri s a y)), ?_, ?_⟩
  · simp [sriStep, hs, ha, hg]
  · rw [Feature.get_set_self]
    simp only [sri, degToRad, solarZenith, solarDeclination, solarAzimuth]

/-- C2: for every feature with a geometry, a defined elevation and a
disk mean defined at its coordinate (strictly inside coverage with a
non-degenerate neighborhood), the mean stage sets `mean_elev_100m` to
the disk mean and the relative-elevation stage sets `relative_elev` to
exactly elevation minus that mean. -/
theorem relative_elev_eq_sub (dem : Raster) (f : Feature) (x y e m : ℝ)
    (hg : f.geometry = some (x, y)) (he : f.get "elevation" = some e)
    (hm : meanCovered dem x y 100 = some m) :
    ∃ f1 f2, meanElevStep dem f = some f1 ∧ f1.get "mean_elev_100m" = some m ∧
      relativeElevStep f1 = some f2 ∧ f2.get "relative_elev" = some (e - m) := by
  have hrr : reduceRegionMean dem x y 100 1000000 = some (some m) := by
    rw [reduceRegionMean_eq, hm]
  refine ⟨f.set "mean_elev_100m" (some m),
    (f.set "mean_elev_100m" (some m)).set "relative_elev" (some (e - m)), ?_, ?_, ?_, ?_⟩
  · simp [meanElevStep, hg, hrr]
  · exact Feature.get_set_self _ _ _
  · have he1 : (f.set "mean_elev_100m" (some m)).get "elevation" = some e := by
      rw [Feature.get_set_ne _ _ _ _ (by decide)]
      exact he
    simp [relativeElevStep, he1, Feature.get_set_self]
  · exact Feature.get_set_self _ _ _

/-- Inversion: a successful mean stage only updates `mean_elev_100m`. -/
lemma meanElevStep_inv (dem : Raster) (f fm : Feature)
    (h : meanElevStep dem f = some fm) : ∃ v, fm = f.set "mean_elev_100m" v := by
  rcases hg : f.geometry with _ | c
  · simp [meanElevStep, hg] at h
  · rcases hr : reduceRegionMean dem c.1 c.2 100 1000000 with _ | v
    · simp [meanElevStep, hg, hr] at h
    · simp [meanElevStep, hg, hr] at h
      exact ⟨v, h.symm⟩

/-- Inversion: a successful relative-elevation stage only updates
`relative_elev`. -/
lemma relativeElevStep_inv (f fr : Feature)
    (h : relativeElevStep f = some fr) : ∃ w, fr = f.set "relative_elev" w := by
  rcases he : f.get "elevation" with _ | e
  · simp [relativeElevStep, he] at h
  · rcases hm : f.get "mean_elev_100m" with _ | m
    · simp [relativeElevStep, he, hm] at h
    · simp [relativeElevStep, he, hm] at h
      exact ⟨some (e - m), h.symm⟩

/-- Inversion: a successful SRI stage only updates
`solar_radiation_index`. -/
lemma sriStep_inv (f fs : Feature)
    (h : sriStep f = some fs) : ∃ w, fs = f.set "solar_radiation_index" w := by
  rcases hs : f.get "slope" with _ | s
  · simp [sriStep, hs] at h
  · rcases ha : f.get "aspect" with _ | a
    · simp [sriStep, hs, ha] at h
    · rcases hg : f.geometry with _ | c
      · simp [sriStep, hs, ha, hg] at h
      · simp [sriStep, hs, ha, hg] at h
        exact ⟨some (sri s a c.2), h.symm⟩

/-- C8: each derived stage only adds its own named field: the mean
stage adds `mean_elev_100m`, the relative-elevation stage adds
`relative_elev`, the SRI stage adds `solar_radiation_index`, and each
stage leaves the geometry and every other property of the record
exactly as it found them. -/
theorem stages_frame (dem : Raster) (f fm fr fs : Feature) (k : String)
    (h1 : meanElevStep dem f = some fm)
    (h2 : relativeElevStep fm = some fr)
    (h3 : sriStep fr = some fs) :
    (fm.geometry = f.geometry ∧ (k ≠ "mean_elev_100m" → fm.get k = f.get k)) ∧
      (fr.geometry = fm.geometry ∧ (k ≠ "relative_elev" → fr.get k = fm.get k)) ∧
      (fs.geometry = fr.geometry ∧ (k ≠ "solar_radiation_index" → fs.get k = fr.get k)) := by
  obtain ⟨v1, e1⟩ := meanElevStep_inv dem f fm h1
  obtain ⟨v2, e2⟩ := relativeElevStep_inv fm fr h2
  obtain ⟨v3, e3⟩ := sriStep_inv fr fs h3
  subst e1
  subst e2
  subst e3
  exact ⟨⟨rfl, fun hk => Feature.get_set_ne _ _ _ _ hk⟩,
    ⟨rfl, fun hk => Feature.get_set_ne _ _ _ _ hk⟩,
    ⟨rfl, fun hk => Feature.get_set_ne _ _ _ _ hk⟩⟩

/-- Unfolding lemma: a feature whose pixel is unmasked is sampled and kept. -/
lemma sampledPointsOf_cons_some (elev slope aspect : Raster) (f : Feature)
    (rest : List Feature) (c : ℝ × ℝ) (e : ℝ)
    (hg : f.geometry = some c) (hv : valueAt elev c.1 c.2 = some e) :
    sampledPointsOf elev slope aspect (f :: rest) =
      (sampledPointsOf elev slope aspect rest).map
        (fun rest2 => (((f.set "elevation" (some e)).set "slope"
          (valueAt slope c.1 c.2)).set "aspect" (valueAt aspect c.1 c.2)) :: rest2) := by
  simp only [sampledPointsOf, hg, hv]
  rcases h : sampledPointsOf elev slope aspect rest with _ | r <;> simp

/-- Unfolding lemma: a feature whose pixel is masked is dropped without a
record. -/
lemma sampledPointsOf_cons_none (elev slope aspect : Raster) (f : Feature)
    (rest : List Feature) (c : ℝ × ℝ)
    (hg : f.geometry = some c) (hv : valueAt elev c.1 c.2 = none) :
    sampledPointsOf elev slope aspect (f :: rest) =
      sampledPointsOf elev slope aspect rest := by
  simp only [sampledPointsOf, hg, hv]

/-- Unfolding lemma: a feature without a geometry makes the sampling call
fail. -/
lemma sampledPointsOf_cons_nogeom (elev slope aspect : Raster) (f : Feature)
    (rest : List Feature) (hg : f.geometry = none) :
    sampledPointsOf elev slope aspect (f :: rest) = none := by
  simp only [sampledPointsOf, hg]

/-- A feature without a geometry anywhere in the collection makes the
whole sampling stage fail. -/
lemma sampledPointsOf_eq_none_of_mem (elev slope aspect : Raster)
    (pts : List Feature) (f : Feature) (hmem : f ∈ pts) (hg : f.geometry = none) :
    sampledPointsOf elev slope aspect pts = none := by
  induction pts with
  | nil => cases hmem
  | cons a rest ih =>
    rcases List.mem_cons.mp hmem with rfl | hm
    · exact sampledPointsOf_cons_nogeom elev slope aspect f rest hg
    · rcases hga : a.geometry with _ | c
      · exact sampledPointsOf_cons_nogeom elev slope aspect a rest hga
      · rcases hva : valueAt elev c.1 c.2 with _ | e
        · rw [sampledPointsOf_cons_none elev slope aspect a rest c hga hva]
          exact ih hm
        · rw [sampledPointsOf_cons_some elev slope aspect a rest c e hga hva, ih hm]
          rfl

/-- Unfolding lemma for a mapped stage on a cons cell whose head succeeds. -/
lemma mapStage_cons_some (g : Feature → Option Feature) (f f2 : Feature)
    (rest : List Feature) (h : g f = some f2) :
    mapStage g (f :: rest) = (mapStage g rest).map (fun r => f2 :: r) := by
  simp only [mapStage, h]
  rcases hr : mapStage g rest with _ | r <;> simp

/-- Unfolding lemma for a mapped stage on a cons cell whose head fails. -/
lemma mapStage_cons_none (g : Feature → Option Feature) (f : Feature)
    (rest : List Feature) (h : g f = none) :
    mapStage g (f :: rest) = none := by
  simp only [mapStage, h]

/-- One failing feature anywhere in the collection makes the whole mapped
stage fail. -/
lemma mapStage_eq_none_of_mem (g : Feature → Option Feature)
    (fs : List Feature) (f : Feature) (hmem : f ∈ fs) (h : g f = none) :
    mapStage g fs = none := by
  induction fs with
  | nil => cases hmem
  | cons a rest ih =>
    rcases List.mem_cons.mp hmem with rfl | hm
    · exact mapStage_cons_none g f rest h
    · rcases ha : g a with _ | a2
      · exact mapStage_cons_none g a rest ha
      · rw [mapStage_cons_some g a a2 rest ha, ih hm]
        rfl

/-- Concrete demonstration raster: a single unmasked cell at the origin
with elevation 5; everything else is outside coverage. -/
noncomputable def demElev : Raster := ⟨fun p => if p = (0, 0) then some 5 else none⟩

/-- Concrete demonstration slope layer: flat everywhere. -/
noncomputable def demSlope : Raster := ⟨fun _ => some 0⟩

/-- Concrete demonstration aspect layer: 0 everywhere. -/
noncomputable def demAspect : Raster := ⟨fun _ => some 0⟩

/-- Concrete demonstration raster with no coverage at all. -/
noncomputable def dem0 : Raster := ⟨fun _ => none⟩

/-- Concrete input point inside coverage. -/
noncomputable def pIn : Feature :=
  ⟨some (0, 0), fun k => if k = "id" then some 1 else none⟩

/-- Concrete input point entirely outside raster coverage. -/
noncomputable def pOut : Feature :=
  ⟨some (1000, 1000), fun k => if k = "id" then some 2 else none⟩

/-- Concrete malformed input point: no coordinates at all. -/
noncomputable def pMal : Feature := ⟨none, fun _ => none⟩

/-- Concrete feature with every property the derived stages read. -/
noncomputable def fW : Feature :=
  ⟨some (0, 0), fun k =>
    if k = "elevation" then some 5
    else if k = "slope" then some 0
    else if k = "aspect" then some 0
    else if k = "id" then some 1 else none⟩

lemma valueAt_demElev_origin : valueAt demElev 0 0 = some 5 := by
  have h02 : (0 : ℝ) / 2 = 0 := by norm_num
  simp [valueAt, nearestCell, h02, demElev]

lemma valueAt_demElev_far : valueAt demElev 1000 1000 = none := by
  have h5 : round ((1000 : ℝ) / 2) = 500 := by
    rw [show (1000 : ℝ) / 2 = ((500 : ℤ) : ℝ) by norm_num, round_intCast]
  simp [valueAt, nearestCell, h5, demElev]

lemma zero_mem_diskCells : ((0, 0) : ℤ × ℤ) ∈ diskCells 0 0 100 := by
  rw [mem_diskCells 0 0 100 (by norm_num)]
  norm_num

lemma coveredCells_demElev : coveredCells demElev 0 0 100 = {((0, 0) : ℤ × ℤ)} := by
  ext p
  simp only [coveredCells, Finset.mem_filter, Finset.mem_singleton]
  constructor
  · rintro ⟨hmem, hsome⟩
    by_cases hp : p = (0, 0)
    · exact hp
    · simp only [demElev] at hsome
      rw [if_neg hp] at hsome
      cases hsome
  · rintro rfl
    exact ⟨zero_mem_diskCells, by simp [demElev]⟩

lemma meanCovered_demElev : meanCovered demElev 0 0 100 = some 5 := by
  rw [meanCovered, coveredCells_demElev]
  norm_num [demElev]

lemma meanCovered_dem0 : meanCovered dem0 0 0 100 = none := by
  have hempty : coveredCells dem0 0 0 100 = ∅ := by
    simp [coveredCells, dem0]
  rw [meanCovered, hempty]
  simp

/-- The frame witness features: `fW` after each successive stage. -/
noncomputable def fmW : Feature := fW.set "mean_elev_100m" (some 5)

/-- Feature `fmW` after the relative-elevation stage. -/
noncomputable def frW : Feature := fmW.set "relative_elev" (some (5 - 5))

/-- Feature `frW` after the SRI stage. -/
noncomputable def fsW : Feature := frW.set "solar_radiation_index" (some (sri 0 0 0))

/-- Witness for C1 at a concrete feature: slope 0, aspect 0, latitude 0. -/
theorem sriStep_formula_witness :
    fW.get "slope" = some 0 ∧ fW.get "aspect" = some 0 ∧ fW.geometry = some (0, 0) ∧
      ∃ f2, sriStep fW = some f2 ∧
        f2.get "solar_radiation_index" =
          some (Real.cos |(0 : ℝ) * Real.pi / 180 - 23.44 * Real.pi / 180| *
              Real.cos ((0 : ℝ) * Real.pi / 180) +
            Real.sin |(0 : ℝ) * Real.pi / 180 - 23.44 * Real.pi / 180| *
              Real.sin ((0 : ℝ) * Real.pi / 180) *
              Real.cos ((0 : ℝ) * Real.pi / 180 - 136.52 * Real.pi / 180)) :=
  ⟨rfl, rfl, rfl, sriStep_formula fW 0 0 0 0 rfl rfl rfl⟩

/-- Witness for C2 at a concrete raster and feature: elevation 5, disk
mean 5, relative elevation 5 - 5. -/
theorem relative_elev_eq_sub_witness :
    fW.geometry = some (0, 0) ∧ fW.get "elevation" = some 5 ∧
      meanCovered demElev 0 0 100 = some 5 ∧
      ∃ f1 f2, meanElevStep demElev fW = some f1 ∧ f1.get "mean_elev_100m" = some 5 ∧
        relativeElevStep f1 = some f2 ∧ f2.get "relative_elev" = some (5 - 5) :=
  ⟨rfl, rfl, meanCovered_demElev,
    relative_elev_eq_sub demElev fW 0 0 5 5 rfl rfl meanCovered_demElev⟩

lemma meanElevStep_fW : meanElevStep demElev fW = some fmW := by
  have hg : fW.geometry = some ((0 : ℝ), (0 : ℝ)) := rfl
  simp only [meanElevStep, hg, reduceRegionMean_eq, meanCovered_demElev, fmW]

lemma relativeElevStep_fmW : relativeElevStep fmW = some frW := by
  have he : fmW.get "elevation" = some 5 := rfl
  have hm : fmW.get "mean_elev_100m" = some 5 := rfl
  simp only [relativeElevStep, he, hm, frW]

lemma sriStep_frW : sriStep frW = some fsW := by
  have hs : frW.get "slope" = some 0 := rfl
  have ha : frW.get "aspect" = some 0 := rfl
  have hg : frW.geometry = some ((0 : ℝ), (0 : ℝ)) := rfl
  simp only [sriStep, hs, ha, hg, fsW]

/-- Witness for C8 at a concrete run of the three stages, checking the
untouched property `elevation` and the geometry after each stage. -/
theorem stages_frame_witness :
    meanElevStep demElev fW = some fmW ∧ relativeElevStep fmW = some frW ∧
      sriStep frW = some fsW ∧
      fmW.geometry = fW.geometry ∧ fmW.get "elevation" = fW.get "elevation" ∧
      frW.geometry = fmW.geometry ∧ frW.get "elevation" = fmW.get "elevation" ∧
      fsW.geometry = frW.geometry ∧ fsW.get "elevation" = frW.get "elevation" := by
  obtain ⟨⟨g1, p1⟩, ⟨g2, p2⟩, ⟨g3, p3⟩⟩ :=
    stages_frame demElev fW fmW frW fsW "elevation" meanElevStep_fW
      relativeElevStep_fmW sriStep_frW
  exact ⟨meanElevStep_fW, relativeElevStep_fmW, sriStep_frW,
    g1, p1 (by decide), g2, p2 (by decide), g3, p3 (by decide)⟩

/-- Feature `pIn` after the sampling stage. -/
noncomputable def pInS : Feature :=
  ((pIn.set "elevation" (some 5)).set "slope" (some 0)).set "aspect" (some 0)

/-- Feature `pInS` after the mean-elevation stage. -/
noncomputable def pInM : Feature := pInS.set "mean_elev_100m" (some 5)

/-- Feature `pInM` after the relative-elevation stage. -/
noncomputable def pInR : Feature := pInM.set "relative_elev" (some (5 - 5))

/-- Feature `pInR` after the SRI stage. -/
noncomputable def pInFin : Feature := pInR.set "solar_radiation_index" (some (sri 0 0 0))

lemma sampled_demo :
    sampledPointsOf demElev demSlope demAspect [pIn, pOut] = some [pInS] := by
  rw [sampledPointsOf_cons_some demElev demSlope demAspect pIn [pOut] (0, 0) 5 rfl
    valueAt_demElev_origin]
  rw [sampledPointsOf_cons_none demElev demSlope demAspect pOut [] (1000, 1000) rfl
    valueAt_demElev_far]
  simp [valueAt, nearestCell, demSlope, demAspect, sampledPointsOf, pInS]

lemma meanElevStep_pInS : meanElevStep demElev pInS = some pInM := by
  have hg : pInS.geometry = some ((0 : ℝ), (0 : ℝ)) := rfl
  simp only [meanElevStep, hg, reduceRegionMean_eq, meanCovered_demElev, pInM]

lemma relativeElevStep_pInM : relativeElevStep pInM = some pInR := by
  have he : pInM.get "elevation" = some 5 := rfl
  have hm : pInM.get "mean_elev_100m" = some 5 := rfl
  simp only [relativeElevStep, he, hm, pInR]

lemma sriStep_pInR : sriStep pInR = some pInFin := by
  have hs : pInR.get "slope" = some 0 := rfl
  have ha : pInR.get "aspect" = some 0 := rfl
  have hg : pInR.geometry = some ((0 : ℝ), (0 : ℝ)) := rfl
  simp only [sriStep, hs, ha, hg, pInFin]

lemma pipeline_demo :
    pipeline demElev demSlope demAspect [pIn, pOut] = some [pInFin] := by
  have m1 : withMean100m demElev [pInS] = some [pInM] := by
    rw [withMean100m, mapStage_cons_some _ _ _ _ meanElevStep_pInS]
    rfl
  have r1 : withRelativeElev [pInM] = some [pInR] := by
    rw [withRelativeElev, mapStage_cons_some _ _ _ _ relativeElevStep_pInM]
    rfl
  have w1 : withSRI [pInR] = some [pInFin] := by
    rw [withSRI, mapStage_cons_some _ _ _ _ sriStep_pInR]
    rfl
  simp only [pipeline, sampled_demo, m1, r1, w1]

/-- Counterexample for C3 at a concrete input: of two input points, one
inside and one entirely outside raster coverage, the output table holds
exactly one record — the one for the inside point.  The out-of-coverage
point gets no record with missing fields: it is silently omitted, and
nothing in the pipeline counts or reports it. -/
theorem out_of_coverage_cex :
    (pipeline demElev demSlope demAspect [pIn, pOut]).map
      (fun out => out.map (fun g => g.get "id")) = some [some 1] := by
  rw [pipeline_demo]
  have hid : pInFin.get "id" = some 1 := rfl
  simp [hid]

/-- C3 amended: a point whose exact lookup falls outside raster coverage
is silently dropped by the sampling stage: the pipeline output on a
collection containing it is exactly the output on the collection without
it, with no record and no report of the exclusion. -/
theorem out_of_coverage_dropped (elev slope aspect : Raster) (f : Feature) (c : ℝ × ℝ)
    (rest : List Feature) (hg : f.geometry = some c) (hv : valueAt elev c.1 c.2 = none) :
    pipeline elev slope aspect (f :: rest) = pipeline elev slope aspect rest := by
  simp only [pipeline, sampledPointsOf_cons_none elev slope aspect f rest c hg hv]

/-- Witness for the amended C3 at a concrete out-of-coverage point. -/
theorem out_of_coverage_dropped_witness :
    pOut.geometry = some (1000, 1000) ∧ valueAt demElev 1000 1000 = none ∧
      pipeline demElev demSlope demAspect [pOut, pIn] =
        pipeline demElev demSlope demAspect [pIn] :=
  ⟨rfl, valueAt_demElev_far,
    out_of_coverage_dropped demElev demSlope demAspect pOut (1000, 1000) [pIn] rfl
      valueAt_demElev_far⟩

/-- Concrete feature for C6: a point with a defined elevation whose
100-unit disk has no raster coverage at all. -/
noncomputable def fC6 : Feature :=
  ⟨some (0, 0), fun k => if k = "elevation" then some 5 else none⟩

/-- Counterexample for C6 at a concrete input: over a raster with no
coverage the disk mean is null and `mean_elev_100m` is set to null as
the claim says, but the relative-elevation stage then fails on the null
instead of producing a record whose `relative_elev` is missing — the
whole mapped stage (and so the run) errors out. -/
theorem missing_mean_errors_cex :
    meanElevStep dem0 fC6 = some (fC6.set "mean_elev_100m" none) ∧
      relativeElevStep (fC6.set "mean_elev_100m" none) = none ∧
      withRelativeElev [fC6.set "mean_elev_100m" none] = none := by
  have hg : fC6.geometry = some ((0 : ℝ), (0 : ℝ)) := rfl
  have h1 : meanElevStep dem0 fC6 = some (fC6.set "mean_elev_100m" none) := by
    simp only [meanElevStep, hg, reduceRegionMean_eq, meanCovered_dem0]
  have he : (fC6.set "mean_elev_100m" none).get "elevation" = some 5 := rfl
  have hm : (fC6.set "mean_elev_100m" none).get "mean_elev_100m" = none := rfl
  have h2 : relativeElevStep (fC6.set "mean_elev_100m" none) = none := by
    simp only [relativeElevStep, he, hm]
  exact ⟨h1, h2, mapStage_cons_none _ _ _ h2⟩

/-- C6 amended: a disk with zero coverage gives a null mean (as
claimed), but a feature whose `mean_elev_100m` is null does not get a
record with `relative_elev` missing — the relative-elevation stage
fails on the whole collection containing it. -/
theorem mean_missing_policy (dem : Raster) (x y : ℝ) (f : Feature) (fs : List Feature)
    (hmem : f ∈ fs) (hcov : (coveredCells dem x y 100).card = 0)
    (hnone : f.get "mean_elev_100m" = none) :
    meanCovered dem x y 100 = none ∧ withRelativeElev fs = none := by
  refine ⟨by simp [meanCovered, hcov], ?_⟩
  refine mapStage_eq_none_of_mem relativeElevStep fs f hmem ?_
  rcases he : f.get "elevation" with _ | e
  · simp [relativeElevStep, he]
  · simp [relativeElevStep, he, hnone]

/-- Witness for the amended C6 at a concrete raster with no coverage. -/
theorem mean_missing_policy_witness :
    fC6 ∈ [fC6] ∧ (coveredCells dem0 0 0 100).card = 0 ∧
      fC6.get "mean_elev_100m" = none ∧
      meanCovered dem0 0 0 100 = none ∧ withRelativeElev [fC6] = none := by
  have hcov : (coveredCells dem0 0 0 100).card = 0 := by simp [coveredCells, dem0]
  have hmem : fC6 ∈ [fC6] := List.mem_singleton.mpr rfl
  obtain ⟨ha, hb⟩ := mean_missing_policy dem0 0 0 fC6 [fC6] hmem hcov rfl
  exact ⟨hmem, hcov, rfl, ha, hb⟩

/-- Counterexample for C7 at a concrete input: a collection holding one
malformed point (no coordinates) and one healthy point.  The run aborts
with an error and emits no output at all — the malformed point is not
excluded-and-reported, and the healthy point gets no record either. -/
theorem malformed_aborts_cex :
    pipeline demElev demSlope demAspect [pMal, pIn] = none := by
  have hg : pMal.geometry = none := rfl
  simp only [pipeline, sampledPointsOf_cons_nogeom demElev demSlope demAspect pMal [pIn] hg]

/-- C7 amended: a point with a malformed (missing) coordinate anywhere in
the input collection makes the sampling call fail and aborts the whole
run: no point receives output and nothing is excluded, counted or
reported. -/
theorem malformed_geometry_aborts (elev slope aspect : Raster) (pts : List Feature)
    (f : Feature) (hmem : f ∈ pts) (hg : f.geometry = none) :
    pipeline elev slope aspect pts = none := by
  simp only [pipeline, sampledPointsOf_eq_none_of_mem elev slope aspect pts f hmem hg]

/-- Witness for the amended C7 at a concrete malformed point. -/
theorem malformed_geometry_aborts_witness :
    pMal ∈ [pMal] ∧ pMal.geometry = none ∧
      pipeline demElev demSlope demAspect [pMal] = none :=
  ⟨List.mem_singleton.mpr rfl, rfl,
    malformed_geometry_aborts demElev demSlope demAspect [pMal] pMal
      (List.mem_singleton.mpr rfl) rfl⟩

end TopoExtract
